import Mathlib

/-!
Verification development for the Jay SAE J1939 address-claim core
(repository `bjorn-jaes/Jay`).

The repository sources available are `src/tests/address_manager_test.cpp`
(the behavioural test of `jay::address_claimer` and `jay::network`) and
`src/examples/j1939_connection.hpp` (the declaration of the per-peer
connection).  The bodies of `jay::network`, `jay::address_claimer`,
`jay::frame` / header codec and of the connection member functions are not
part of the available sources, so they are modelled from the specification,
arbitrated where necessary by the behaviour the in-tree test asserts.
-/

set_option maxRecDepth 4000

namespace Jay

/-! ## Constants of the J1939 address model (spec §3 and §6) -/

/-- Modelled from the spec: `MAX_UNICAST_ADDR = 253`, top of the valid
unicast address range `0..=253`. -/
def MAX_UNICAST_ADDR : Nat := 253

/-- Modelled from the spec: `IDLE_ADDR = 254`, the "cannot claim" /
unbound source address. -/
def IDLE_ADDR : Nat := 254

/-- Modelled from the spec: `NO_ADDR = 255`, the null destination and the
global PDU-specific field of an address claim. -/
def NO_ADDR : Nat := 255

/-- Modelled from the spec: PDU-format of the address-claim PGN 60928. -/
def PF_ADDRESS_CLAIM : Nat := 238

/-- Modelled from the spec: PDU-format of the request PGN 59904. -/
def PF_REQUEST : Nat := 234

/-- Modelled from the spec: the address-claim PGN, 60928. -/
def PGN_ADDRESS_CLAIM : Nat := 60928

/-- Modelled from the spec (§7): the error kinds of the core.
`PriorityLoss` is informational only and surfaces via `on_lost`, so it is
not an error value here. -/
inductive j1939_error where
  | BadHeader
  | InvalidArgument
  | BusError
  | Exhausted
deriving DecidableEq

/-! ## 4.A Frame / header codec (modelled from the spec; the codec source
`jay/frame.hpp` / `jay/header.hpp` is not under the available sources) -/

/-- Modelled from the spec: the decoded fields of a 29-bit J1939
identifier, layout `[prio:3][R:1][DP:1][PF:8][PS:8][SA:8]`.  The reserved
and data-page bits are kept together in `reserved_dp`. -/
structure header_fields where
  priority : Nat
  reserved_dp : Nat
  pdu_format : Nat
  pdu_specific : Nat
  source_address : Nat
deriving DecidableEq

/-- Modelled from the spec: `decode_header(u32) → fields`, extracting the
bit fields of a 29-bit identifier. -/
def decode_header (id : Nat) : header_fields :=
  { priority := id / 67108864 % 8
    reserved_dp := id / 16777216 % 4
    pdu_format := id / 65536 % 256
    pdu_specific := id / 256 % 256
    source_address := id % 256 }

/-- Modelled from the spec: `encode_header(fields) → u32`; a priority
above 7 fails with `BadHeader`. -/
def encode_header (h : header_fields) : Except j1939_error Nat :=
  if h.priority > 7 then .error .BadHeader
  else .ok (h.priority * 67108864 + h.reserved_dp % 4 * 16777216
    + h.pdu_format % 256 * 65536 + h.pdu_specific % 256 * 256
    + h.source_address % 256)

/-- Modelled from the spec (glossary): the PGN derived from the decoded
fields; for a directed frame the PDU-specific byte is not part of the
PGN. -/
def pgn_of (h : header_fields) : Nat :=
  if 240 ≤ h.pdu_format then
    h.reserved_dp * 65536 + h.pdu_format * 256 + h.pdu_specific
  else h.reserved_dp * 65536 + h.pdu_format * 256

/-- Modelled from the spec: a J1939 frame, a 29-bit header plus up to 8
data bytes (the data length is the length of the list). -/
structure frame where
  header : header_fields
  data : List Nat
deriving DecidableEq

/-- Modelled from the spec: a frame is broadcast iff its PDU-format is at
least 240. -/
def is_broadcast (f : frame) : Bool :=
  decide (240 ≤ f.header.pdu_format)

/-- Modelled from the spec: little-endian 8-byte encoding of a 64-bit
NAME, used as address-claim payload. -/
def name_le8 (n : Nat) : List Nat :=
  [n % 256, n / 256 % 256, n / 65536 % 256, n / 16777216 % 256,
   n / 4294967296 % 256, n / 1099511627776 % 256,
   n / 281474976710656 % 256, n / 72057594037927936 % 256]

/-- Modelled from the spec: reassembling a NAME from little-endian payload
bytes. -/
def le_to_name (l : List Nat) : Nat :=
  l.foldr (fun b acc => b % 256 + 256 * acc) 0

/-- Modelled from the spec: little-endian 3-byte encoding of a PGN, the
payload of a request frame. -/
def pgn_le3 (p : Nat) : List Nat :=
  [p % 256, p / 256 % 256, p / 65536 % 256]

/-- Modelled from the spec: `make_address_claim(name, src)`, PDU-format
238, global PDU-specific 255, priority 6, data = NAME little-endian. -/
def make_address_claim (n : Nat) (src : Nat) : frame :=
  { header :=
      { priority := 6
        reserved_dp := 0
        pdu_format := PF_ADDRESS_CLAIM
        pdu_specific := NO_ADDR
        source_address := src }
    data := name_le8 n }

/-- Modelled from the spec: `make_cannot_claim(name)` is an address claim
from the idle source address 254. -/
def make_cannot_claim (n : Nat) : frame :=
  make_address_claim n IDLE_ADDR

/-- Modelled from the spec: `make_address_request()`, PDU-format 234,
global destination, data = the 3-byte address-claim PGN. -/
def make_address_request : frame :=
  { header :=
      { priority := 6
        reserved_dp := 0
        pdu_format := PF_REQUEST
        pdu_specific := NO_ADDR
        source_address := IDLE_ADDR }
    data := pgn_le3 PGN_ADDRESS_CLAIM }

/-- Modelled from the spec: classification of address-claim frames by
PDU-format. -/
def is_address_claim (f : frame) : Bool :=
  f.header.pdu_format == PF_ADDRESS_CLAIM

/-- Modelled from the spec: classification of requests for the
address-claim PGN. -/
def is_address_request (f : frame) : Bool :=
  f.header.pdu_format == PF_REQUEST && f.data == pgn_le3 PGN_ADDRESS_CLAIM

/-! ## 4.C Network map (modelled from the spec; `jay/network.hpp` is not
under the available sources — only its behavioural test is).  The map is
an association list `NAME → Option address`; an entry `(n, none)` is a
NAME registered without an address (spec §3, invariant 4). -/

/-- Modelled from the spec: the network map, the authoritative table of
`NAME ↔ address` bindings. -/
structure network where
  entries : List (Nat × Option Nat)
deriving DecidableEq

/-- Modelled from the spec: the entry registered for a NAME, if any. -/
def network.find_entry (net : network) (n : Nat) : Option (Nat × Option Nat) :=
  net.entries.find? (fun e => e.1 == n)

/-- Modelled from the spec: `find_address(name) → Option<addr>`. -/
def network.find_address (net : network) (n : Nat) : Option Nat :=
  match net.find_entry n with
  | some e => e.2
  | none => none

/-- Modelled from the spec: `find_name(addr) → Option<NAME>`. -/
def network.find_name (net : network) (a : Nat) : Option Nat :=
  (net.entries.find? (fun e => e.2 == some a)).map (fun e => e.1)

/-- Modelled from the spec: `available(addr)` — the address is in the
unicast range and not bound to any NAME. -/
def network.available (net : network) (a : Nat) : Bool :=
  decide (a ≤ MAX_UNICAST_ADDR) && net.entries.all (fun e => !(e.2 == some a))

/-- Modelled from the spec: `is_full()` — every address `0..=253` is
bound. -/
def network.is_full (net : network) : Bool :=
  (List.range 254).all (fun a => net.entries.any (fun e => e.2 == some a))

/-- Modelled from the spec: `first_free_address(from)` — the lowest
unbound unicast address at least `lo`. -/
def network.first_free_address (net : network) (lo : Nat) : Option Nat :=
  (List.range 254).find? (fun a => decide (lo ≤ a) && net.available a)

/-- Modelled from the spec: `name_size()`, the number of registered
NAMEs. -/
def network.name_size (net : network) : Nat := net.entries.length

/-- Modelled from the spec: `address_size()`, the number of NAMEs holding
an address. -/
def network.address_size (net : network) : Nat :=
  (net.entries.filter (fun e => e.2.isSome)).length

/-- Modelled from the spec: whether a NAME is registered (the test's
`in_network`). -/
def network.in_network (net : network) (n : Nat) : Bool :=
  (net.find_entry n).isSome

/-- Modelled from the spec: `release(name)` — remove any address binding
for the NAME; the NAME stays registered with no address. -/
def network.release (net : network) (n : Nat) : network :=
  ⟨net.entries.map (fun e => if e.1 == n then (e.1, none) else e)⟩

/-- Modelled from the spec: `forget(name)` — remove the NAME entirely. -/
def network.forget (net : network) (n : Nat) : network :=
  ⟨net.entries.filter (fun e => !(e.1 == n))⟩

/-- Modelled from the spec: bind a NAME to an address — update the NAME's
entry in place if registered, append it otherwise. -/
def network.bind_addr (net : network) (n a : Nat) : network :=
  if net.in_network n then
    ⟨net.entries.map (fun e => if e.1 == n then (e.1, some a) else e)⟩
  else ⟨net.entries ++ [(n, some a)]⟩

/-- Modelled from the spec: the outcome variants of `try_claim`. -/
inductive outcome where
  | Inserted
  | Refreshed
  | Displaced (old_name : Nat)
  | Rejected
deriving DecidableEq

/-- Modelled from the spec: `try_claim(name, addr) → Outcome`.  A free
address is bound (`Inserted`); an existing identical binding is
`Refreshed`; a lower-priority (numerically larger) incumbent is displaced
and retained without an address; a higher-priority incumbent rejects the
claim.  An out-of-range address is rejected without change, preserving
invariant 1. -/
def network.try_claim (net : network) (n a : Nat) : outcome × network :=
  if MAX_UNICAST_ADDR < a then (.Rejected, net)
  else
    match net.find_name a with
    | some owner =>
        if owner == n then (.Refreshed, net)
        else if n < owner then (.Displaced owner, (net.release owner).bind_addr n a)
        else (.Rejected, net)
    | none => (.Inserted, net.bind_addr n a)

/-- Modelled from the spec (§3): invariant 1, every stored address is in
the unicast range `0..=253`. -/
def entry_ok (e : Nat × Option Nat) : Prop :=
  e.2.getD 0 ≤ MAX_UNICAST_ADDR

/-- Modelled from the spec (§3): invariants 2 and 3 pairwise — two
distinct entries carry distinct NAMEs, and never the same bound
address. -/
def entry_rel (e1 e2 : Nat × Option Nat) : Prop :=
  e1.1 ≠ e2.1 ∧ (e1.2 = e2.2 → e1.2 = none)

instance (e : Nat × Option Nat) : Decidable (entry_ok e) := by
  unfold entry_ok; infer_instance

instance (e1 e2 : Nat × Option Nat) : Decidable (entry_rel e1 e2) := by
  unfold entry_rel; infer_instance

/-- Modelled from the spec (§3): the network-map invariants — every
stored address is in range, `address → NAME` and `NAME → address` are
partial functions (at most one binding each way). -/
def network_inv (net : network) : Prop :=
  (∀ e ∈ net.entries, entry_ok e) ∧ net.entries.Pairwise entry_rel

instance (net : network) : Decidable (network_inv net) := by
  unfold network_inv; infer_instance

/-! ## 4.D Address claimer (modelled from the spec; `jay/address_claimer.hpp`
is not under the available sources — only its behavioural test is).  Where
the spec's prose for the lose branch (§4.D, "emit cannot-claim, transition
`CannotClaim`, then immediately attempt `start_address_claim`") disagrees
with its own scenario S4 and with the in-tree test
`src/tests/address_manager_test.cpp:151-155` (which assert exactly one
emitted frame per contested step, the re-claim), the test is followed: the
lose branch releases, records the remote claim, and immediately re-claims,
emitting only the frames of that attempt. -/

/-- Modelled from the spec: the four claimer states. -/
inductive claimer_state where
  | NoAddress
  | Claiming (addr : Nat)
  | Claimed (addr : Nat)
  | CannotClaim
deriving DecidableEq

/-- Modelled from the spec: the address the claimer currently occupies
(claiming or claimed), if any. -/
def current_addr : claimer_state → Option Nat
  | .Claiming a => some a
  | .Claimed a => some a
  | _ => none

/-- Modelled from the spec: the observable result of one claimer input —
resulting state, resulting network map, frames handed to `on_frame`, and
errors handed to `on_error`. -/
structure step_out where
  state : claimer_state
  net : network
  frames : List frame
  errors : List j1939_error
deriving DecidableEq

/-- Modelled from the spec: the retry loop of `start_address_claim` — try
to claim the candidate; on `Rejected` move to the next free address above
it; when no address is left, emit cannot-claim and enter `CannotClaim`.
The fuel bounds the walk over the 254 possible addresses. -/
def claim_attempt (ln : Nat) : Nat → Nat → network → step_out
  | 0, _, net => ⟨.CannotClaim, net, [make_cannot_claim ln], []⟩
  | fuel + 1, a, net =>
    match net.try_claim ln a with
    | (.Rejected, _) =>
        match net.first_free_address (a + 1) with
        | none => ⟨.CannotClaim, net, [make_cannot_claim ln], []⟩
        | some a2 => claim_attempt ln fuel a2 net
    | (_, net2) => ⟨.Claiming a, net2, [make_address_claim ln a], []⟩

/-- Modelled from the spec: `start_address_claim(preferred)` — pick the
preferred address if available, else the first free address; with none
left, emit one cannot-claim frame and enter `CannotClaim` (the `Exhausted`
condition, not reported through `on_error`); otherwise claim it, emit an
address-claim frame and enter `Claiming`. -/
def start_address_claim (ln : Nat) (pref : Nat) (net : network) : step_out :=
  match (if net.available pref then some pref else net.first_free_address 0) with
  | none => ⟨.CannotClaim, net, [make_cannot_claim ln], []⟩
  | some a => claim_attempt ln 255 a net

/-- Modelled from the spec: the claimer's re-contest after losing a
conflict — the contested address plus one is claimed directly (§9 design
note: "The source increments the re-contest address as `i+1` without
checking `first_free_address`"), displacing a lower-priority holder if
necessary; only when no address is obtainable does it fall back to
cannot-claim. -/
def contest (ln : Nat) (a : Nat) (net : network) : step_out :=
  claim_attempt ln 255 a net

/-- Modelled from the spec: `process(frame)` — filter to address-claim and
address-request frames.  A claim on our current address is a conflict: we
defend (re-emit) when the local NAME has priority, otherwise we release,
record the remote claim, and immediately re-claim from the contested
address plus one (following the in-tree test, which observes exactly the
frames of that re-claim).  A claim elsewhere only updates the map.  A
request (global or directed to our address) is answered with our claim
when `Claimed`, with cannot-claim otherwise.  A claim with payload length
other than 8 is dropped and counted via `on_error` with `BadHeader`. -/
def process (ln : Nat) (st : claimer_state) (net : network) (f : frame) : step_out :=
  if is_address_claim f then
    if f.data.length ≠ 8 then ⟨st, net, [], [.BadHeader]⟩
    else
      match current_addr st with
      | some a =>
        if f.header.source_address == a then
          if ln < le_to_name f.data then ⟨st, net, [make_address_claim ln a], []⟩
          else
            contest ln (f.header.source_address + 1)
              (((net.release ln).try_claim (le_to_name f.data) f.header.source_address).2)
        else ⟨st, (net.try_claim (le_to_name f.data) f.header.source_address).2, [], []⟩
      | none => ⟨st, (net.try_claim (le_to_name f.data) f.header.source_address).2, [], []⟩
  else if is_address_request f
      && (f.header.pdu_specific == NO_ADDR
          || current_addr st == some f.header.pdu_specific) then
    match st with
    | .Claimed a => ⟨st, net, [make_address_claim ln a], []⟩
    | _ => ⟨st, net, [make_cannot_claim ln], []⟩
  else ⟨st, net, [], []⟩

/-- Modelled from the spec: the 250 ms settle timer firing — `Claiming`
settles into `Claimed`; other states ignore the tick. -/
def tick : claimer_state → claimer_state
  | .Claiming a => .Claimed a
  | s => s

/-! ## 4.E J1939 connection (the bodies of `j1939_connection`'s members
are not under the available sources — `src/examples/j1939_connection.hpp`
declares them; they are modelled from the spec). -/

/-- Modelled from the spec: the connection state a send/receive operation
touches — the optional local and target NAMEs and the FIFO outgoing
queue. -/
structure connection where
  local_name : Option Nat
  target_name : Option Nat
  queue : List frame
deriving DecidableEq

/-- Modelled from the spec: stamping the source-address byte of a
frame. -/
def stamp_source (f : frame) (a : Nat) : frame :=
  { f with header := { f.header with source_address := a } }

/-- Modelled from the spec: stamping the destination (PDU-specific) byte
of a frame. -/
def stamp_dest (f : frame) (a : Nat) : frame :=
  { f with header := { f.header with pdu_specific := a } }

/-- Modelled from the spec: the address currently bound to the
connection's local NAME, when a local NAME is configured and bound. -/
def local_address (net : network) (c : connection) : Option Nat :=
  match c.local_name with
  | none => none
  | some ln => net.find_address ln

/-- Modelled from the spec: `send_raw(frame)` — enqueue verbatim, no
rewriting. -/
def send_raw (c : connection) (f : frame) : connection :=
  { c with queue := c.queue ++ [f] }

/-- Modelled from the spec: `broadcast(frame)` — require a broadcast
PDU-format, stamp the source address from `network.find_address(local_name)`,
and enqueue; a directed frame or an unbound local NAME fails synchronously
with `InvalidArgument`, leaving the queue untouched (the error carries no
new connection state). -/
def broadcast (net : network) (c : connection) (f : frame) :
    Except j1939_error connection :=
  if !(is_broadcast f) then .error .InvalidArgument
  else
    match local_address net c with
    | none => .error .InvalidArgument
    | some a => .ok { c with queue := c.queue ++ [stamp_source f a] }

/-- Modelled from the spec: `send_to(target, frame)` — require a directed
PDU-format; stamp source from the local NAME's address and destination
from the target NAME's address; any unbound NAME fails with
`InvalidArgument`. -/
def send_to (net : network) (c : connection) (t : Nat) (f : frame) :
    Except j1939_error connection :=
  if is_broadcast f then .error .InvalidArgument
  else
    match local_address net c, net.find_address t with
    | some sa, some da =>
        .ok { c with queue := c.queue ++ [stamp_dest (stamp_source f sa) da] }
    | _, _ => .error .InvalidArgument

/-- Modelled from the spec: `send(frame)` — `send_to` with the configured
target NAME; fails with `InvalidArgument` when none is set. -/
def send (net : network) (c : connection) (f : frame) :
    Except j1939_error connection :=
  match c.target_name with
  | none => .error .InvalidArgument
  | some t => send_to net c t f

/-- Modelled from the spec: `validate_address` — with no NAMEs set every
frame is accepted; a configured local NAME restricts directed frames to
those addressed to its current address; a configured target NAME
restricts frames to those sourced from its current address. -/
def validate_address (net : network) (lnm tnm : Option Nat) (f : frame) : Bool :=
  (match lnm with
   | none => true
   | some ln => is_broadcast f || (net.find_address ln == some f.header.pdu_specific))
  && (match tnm with
      | none => true
      | some tn => net.find_address tn == some f.header.source_address)

/-- Modelled from the spec: the read path — an accepted frame is delivered
to `on_read`, a rejected frame is silently dropped (no callback). -/
def read_deliver (net : network) (lnm tnm : Option Nat) (f : frame) : Option frame :=
  if validate_address net lnm tnm f then some f else none

/-- Modelled from the spec: the operations of a connection, for stating
that none of them touches the shared network map. -/
inductive conn_op where
  | raw_op (f : frame)
  | broadcast_op (f : frame)
  | send_op (f : frame)
  | send_to_op (t : Nat) (f : frame)
  | read_op (f : frame)

/-- Modelled from the spec: keep the previous connection state when an
operation fails (an `Except` error carries no state change). -/
def exceptD (c : connection) : Except j1939_error connection → connection
  | .ok c2 => c2
  | .error _ => c

/-- Modelled from the spec: one connection operation over the shared
world.  The C++ connection holds the map through a `const` reference
(`j1939_connection.hpp:253`), so every operation threads the map through
unchanged; the claimer is the sole mutator. -/
def conn_step (net : network) (c : connection) :
    conn_op → network × connection × Option frame
  | .raw_op f => (net, send_raw c f, none)
  | .broadcast_op f => (net, exceptD c (broadcast net c f), none)
  | .send_op f => (net, exceptD c (send net c f), none)
  | .send_to_op t f => (net, exceptD c (send_to net c t f), none)
  | .read_op f => (net, c, read_deliver net c.local_name c.target_name f)

/-! ## The contested-walk scenario (spec §8 S4, test lines 141-160) -/

/-- Modelled from the spec: the claimer and map state entering the
contested walk — the remote NAME `0xa00c81045a20021b` observed at `0x10`,
the local NAME `0xFF` settled on address 0. -/
def walk_init_net : network :=
  ⟨[(0xa00c81045a20021b, some 0x10), (0xFF, some 0x00)]⟩

/-- Modelled from the spec: one step of the contested walk — the remote
claim `(NAME{i}, i)` is first inserted into the map, then processed by the
claimer for local NAME `0xFF`. -/
def walk_step (st : claimer_state) (net : network) (i : Nat) : step_out :=
  process 0xFF st (net.try_claim i i).2 (make_address_claim i i)

/-- Modelled from the spec: run the contested walk from step `i` for
`fuel` steps, checking after each step that exactly one frame was emitted,
that its source address is `i + 1`, and that the local NAME is bound to
`i + 1`; 260 ms elapse between steps (the settle tick fires). -/
def walk_check : Nat → Nat → claimer_state → network → Bool
  | 0, _, _, _ => true
  | fuel + 1, i, st, net =>
    let out := walk_step st net i
    decide (out.frames.length = 1)
      && out.frames.all (fun fr => fr.header.source_address == i + 1)
      && decide (out.net.find_address 0xFF = some (i + 1))
      && walk_check fuel (i + 1) (tick out.state) out.net

/-! ## Closed form of the contested walk, for the inductive proof -/

/-- Modelled from the spec: the remote NAME observed at address `0x10`
before the walk (scenario S2). -/
def walk_remote : Nat := 0xa00c81045a20021b

/-- Modelled from the spec: the map entries contributed by the remote
claims `(NAME{j}, j)` for `j < i`. -/
def pairs (i : Nat) : List (Nat × Option Nat) :=
  (List.range i).map (fun j => (j, some j))

/-- Modelled from the spec: the address held by the initially observed
remote NAME before step `i` of the walk — it is displaced from `0x10` at
step 15, when the local NAME contests address 16. -/
def walk_ro (i : Nat) : Option Nat :=
  if i ≤ 15 then some 16 else none

/-- Modelled from the spec: the network map entering step `i` of the
contested walk — the observed remote NAME, the local NAME `0xFF` holding
address `i`, and the remote claimants `0..i-1`. -/
def walk_net (i : Nat) : network :=
  ⟨(walk_remote, walk_ro i) :: (255, some i) :: pairs i⟩

/-- Modelled from the spec: the network map in the middle of step `i`,
after the remote claim `(NAME{i}, i)` has been inserted (displacing the
local NAME) but before the claimer has processed the conflict. -/
def net_mid (i : Nat) : network :=
  ⟨(walk_remote, walk_ro i) :: (255, none) :: pairs (i + 1)⟩

theorem name_le8_length (n : Nat) : (name_le8 n).length = 8 := rfl

theorem le_to_name_name_le8 (n : Nat) (h : n < 18446744073709551616) :
    le_to_name (name_le8 n) = n := by
  simp only [name_le8, le_to_name, List.foldr]
  omega

/-! ## Helper lemmas for the contested-walk induction -/

theorem list_map_self {α : Type} (l : List α) (f : α → α)
    (h : ∀ x ∈ l, f x = x) : l.map f = l := by
  induction l with
  | nil => rfl
  | cons a t ih =>
    rw [List.map_cons, h a (by simp), ih (fun x hx => h x (by simp [hx]))]

theorem list_find_append_none {α : Type} (l1 l2 : List α) (p : α → Bool)
    (h : l1.find? p = none) : (l1 ++ l2).find? p = l2.find? p := by
  induction l1 with
  | nil => rfl
  | cons a t ih =>
    have hpa : ¬ p a = true := List.find?_eq_none.mp h a (by simp)
    rw [List.find?_cons_of_neg _ hpa] at h
    rw [List.cons_append, List.find?_cons_of_neg _ hpa]
    exact ih h

theorem mem_pairs (i : Nat) (e : Nat × Option Nat) (he : e ∈ pairs i) :
    e.1 < i ∧ e.2 = some e.1 := by
  simp only [pairs, List.mem_map, List.mem_range] at he
  obtain ⟨j, hj, rfl⟩ := he
  exact ⟨hj, rfl⟩

theorem pairs_succ (i : Nat) : pairs (i + 1) = pairs i ++ [(i, some i)] := by
  simp [pairs, List.range_succ]

theorem pairs_find_snd_none (i a : Nat) (ha : i ≤ a) :
    (pairs i).find? (fun e => e.2 == some a) = none := by
  apply List.find?_eq_none.mpr
  intro e he
  obtain ⟨h1, h2⟩ := mem_pairs i e he
  simp only [h2, beq_iff_eq, Option.some.injEq]
  omega

theorem pairs_find_fst_none (i n : Nat) (hn : i ≤ n) :
    (pairs i).find? (fun e => e.1 == n) = none := by
  apply List.find?_eq_none.mpr
  intro e he
  obtain ⟨h1, _⟩ := mem_pairs i e he
  simp only [beq_iff_eq]
  omega

theorem walk_ro_ne_self (i : Nat) (h : i ≤ 252) :
    ((walk_ro i : Option Nat) == some i) = false := by
  unfold walk_ro
  split
  · simp only [beq_eq_false_iff_ne, ne_eq, Option.some.injEq]; omega
  · rfl

theorem walk_ro_ne_succ (i : Nat) (h : i ≠ 15) :
    ((walk_ro i : Option Nat) == some (i + 1)) = false := by
  unfold walk_ro
  split
  · simp only [beq_eq_false_iff_ne, ne_eq, Option.some.injEq]; omega
  · rfl

theorem walk_remote_beq_small (i : Nat) (h : i ≤ 255) :
    ((walk_remote : Nat) == i) = false := by
  unfold walk_remote
  simp only [beq_eq_false_iff_ne, ne_eq]
  omega

theorem find_name_walk (i : Nat) (h : i ≤ 252) :
    (walk_net i).find_name i = some 255 := by
  unfold network.find_name walk_net
  rw [List.find?_cons_of_neg _ (by simp [walk_ro_ne_self i h]),
    List.find?_cons_of_pos _ (by simp)]
  rfl

theorem release_walk (i : Nat) (h : i ≤ 252) :
    (walk_net i).release 255 =
      ⟨(walk_remote, walk_ro i) :: (255, none) :: pairs i⟩ := by
  have hfix : ∀ x ∈ pairs i,
      (if x.1 == 255 then (x.1, (none : Option Nat)) else x) = x := by
    intro x hx
    obtain ⟨h1, _⟩ := mem_pairs i x hx
    have hb : (x.1 == 255) = false := by
      simp only [beq_eq_false_iff_ne, ne_eq]; omega
    simp [hb]
  simp only [network.release, walk_net, List.map_cons, network.mk.injEq]
  rw [list_map_self _ _ hfix]
  simp [walk_remote_beq_small 255 (by omega)]

theorem try_claim_walk (i : Nat) (h : i ≤ 252) :
    (walk_net i).try_claim i i = (.Displaced 255, net_mid i) := by
  unfold network.try_claim
  rw [if_neg (by unfold MAX_UNICAST_ADDR; omega), find_name_walk i h]
  have h255 : ((255 : Nat) == i) = false := by
    simp only [beq_eq_false_iff_ne, ne_eq]; omega
  simp only [h255, Bool.false_eq_true, if_false, if_pos (show i < 255 by omega)]
  rw [release_walk i h]
  unfold network.bind_addr network.in_network network.find_entry
  rw [List.find?_cons_of_neg _ (by simp [walk_remote_beq_small i (by omega)]),
    List.find?_cons_of_neg _ (by simp only [beq_iff_eq]; omega),
    pairs_find_fst_none i i (by omega)]
  simp only [Option.isSome_none, Bool.false_eq_true, if_false]
  rw [Prod.mk.injEq]
  refine ⟨rfl, ?_⟩
  simp [net_mid, pairs_succ]

theorem release_mid (i : Nat) (h : i ≤ 252) :
    (net_mid i).release 255 = net_mid i := by
  unfold network.release net_mid
  rw [network.mk.injEq]
  apply list_map_self
  intro x hx
  rcases List.mem_cons.mp hx with rfl | hx2
  · simp [walk_remote_beq_small 255 (by omega)]
  · rcases List.mem_cons.mp hx2 with rfl | hx3
    · simp
    · obtain ⟨h1, _⟩ := mem_pairs (i + 1) x hx3
      have hb : (x.1 == 255) = false := by
        simp only [beq_eq_false_iff_ne, ne_eq]; omega
      simp [hb]

theorem try_claim_mid_refresh (i : Nat) (h : i ≤ 252) :
    (net_mid i).try_claim i i = (.Refreshed, net_mid i) := by
  unfold network.try_claim
  rw [if_neg (by unfold MAX_UNICAST_ADDR; omega)]
  have hfn : (net_mid i).find_name i = some i := by
    unfold network.find_name net_mid
    rw [List.find?_cons_of_neg _ (by simp [walk_ro_ne_self i h]),
      List.find?_cons_of_neg _ (by simp), pairs_succ,
      list_find_append_none _ _ _ (pairs_find_snd_none i i (by omega))]
    simp
  rw [hfn]
  simp

theorem walk_ro_succ (i : Nat) (h : i ≠ 15) : walk_ro (i + 1) = walk_ro i := by
  unfold walk_ro
  rcases Nat.lt_or_ge i 15 with h1 | h1
  · rw [if_pos (by omega), if_pos (by omega)]
  · rw [if_neg (by omega), if_neg (by omega)]

theorem try_claim_mid_insert (i : Nat) (h : i ≤ 252) (h15 : i ≠ 15) :
    (net_mid i).try_claim 255 (i + 1) = (.Inserted, walk_net (i + 1)) := by
  unfold network.try_claim
  rw [if_neg (by unfold MAX_UNICAST_ADDR; omega)]
  have hfn : (net_mid i).find_name (i + 1) = none := by
    unfold network.find_name net_mid
    rw [List.find?_cons_of_neg _ (by simp [walk_ro_ne_succ i h15]),
      List.find?_cons_of_neg _ (by simp),
      pairs_find_snd_none (i + 1) (i + 1) (by omega)]
    rfl
  rw [hfn]
  have hbind : (net_mid i).bind_addr 255 (i + 1) = walk_net (i + 1) := by
    unfold network.bind_addr network.in_network network.find_entry net_mid
    rw [List.find?_cons_of_neg _ (by simp [walk_remote_beq_small 255 (by omega)]),
      List.find?_cons_of_pos _ (by simp)]
    simp only [Option.isSome_some, if_true]
    have hfix : ∀ x ∈ pairs (i + 1),
        (if x.1 == 255 then (x.1, some (i + 1)) else x) = x := by
      intro x hx
      obtain ⟨h1, _⟩ := mem_pairs (i + 1) x hx
      have hb : (x.1 == 255) = false := by
        simp only [beq_eq_false_iff_ne, ne_eq]; omega
      simp [hb]
    simp only [List.map_cons, network.mk.injEq]
    rw [list_map_self _ _ hfix]
    simp [walk_net, walk_remote_beq_small 255 (by omega), walk_ro_succ i h15]
  rw [hbind]

theorem try_claim_mid_displace :
    (net_mid 15).try_claim 255 16 = (.Displaced walk_remote, walk_net 16) := by
  decide

theorem claim_attempt_success (ln fuel a : Nat) (net net2 : network)
    (o : outcome) (h : net.try_claim ln a = (o, net2)) (ho : o ≠ .Rejected) :
    claim_attempt ln (fuel + 1) a net =
      ⟨.Claiming a, net2, [make_address_claim ln a], []⟩ := by
  unfold claim_attempt
  rw [h]
  cases o with
  | Inserted => rfl
  | Refreshed => rfl
  | Displaced old => rfl
  | Rejected => exact absurd rfl ho

theorem contest_mid (i : Nat) (h : i ≤ 252) :
    contest 255 (i + 1) (net_mid i) =
      ⟨.Claiming (i + 1), walk_net (i + 1), [make_address_claim 255 (i + 1)], []⟩ := by
  show claim_attempt 255 (254 + 1) (i + 1) (net_mid i) = _
  by_cases h15 : i = 15
  · subst h15
    exact claim_attempt_success 255 254 16 _ _ _ try_claim_mid_displace (by decide)
  · exact claim_attempt_success 255 254 (i + 1) _ _ _
      (try_claim_mid_insert i h h15) (by decide)

theorem process_claim_conflict_lose (ln rn ra : Nat) (st : claimer_state)
    (net : network) (hcur : current_addr st = some ra)
    (hrn : rn < 18446744073709551616) (hlt : ¬ ln < rn) :
    process ln st net (make_address_claim rn ra) =
      contest ln (ra + 1) (((net.release ln).try_claim rn ra).2) := by
  have hdata : le_to_name (make_address_claim rn ra).data = rn :=
    le_to_name_name_le8 rn hrn
  have h1 : is_address_claim (make_address_claim rn ra) = true := rfl
  have h2 : ¬ ((make_address_claim rn ra).data.length ≠ 8) := by
    simp [make_address_claim, name_le8]
  have h3 : ((make_address_claim rn ra).header.source_address == ra) = true := by
    simp [make_address_claim]
  cases st with
  | Claiming a =>
    simp only [current_addr, Option.some.injEq] at hcur
    subst hcur
    simp only [process, h1, if_true, current_addr]
    rw [if_neg h2]
    simp only [h3, if_true, hdata]
    rw [if_neg hlt]
    rfl
  | Claimed a =>
    simp only [current_addr, Option.some.injEq] at hcur
    subst hcur
    simp only [process, h1, if_true, current_addr]
    rw [if_neg h2]
    simp only [h3, if_true, hdata]
    rw [if_neg hlt]
    rfl
  | NoAddress => simp [current_addr] at hcur
  | CannotClaim => simp [current_addr] at hcur

theorem process_mid (i : Nat) (h : i ≤ 252) :
    process 255 (.Claimed i) (net_mid i) (make_address_claim i i) =
      ⟨.Claiming (i + 1), walk_net (i + 1), [make_address_claim 255 (i + 1)], []⟩ := by
  rw [process_claim_conflict_lose 255 i i (.Claimed i) (net_mid i) rfl
    (by omega) (by omega)]
  rw [release_mid i h, try_claim_mid_refresh i h]
  exact contest_mid i h

theorem walk_step_eq (i : Nat) (h : i ≤ 252) :
    walk_step (.Claimed i) (walk_net i) i =
      ⟨.Claiming (i + 1), walk_net (i + 1), [make_address_claim 255 (i + 1)], []⟩ := by
  unfold walk_step
  rw [try_claim_walk i h]
  exact process_mid i h

theorem find_address_walk (k : Nat) :
    (walk_net k).find_address 255 = some k := by
  unfold network.find_address network.find_entry walk_net
  rw [List.find?_cons_of_neg _ (by simp [walk_remote_beq_small 255 (by omega)]),
    List.find?_cons_of_pos _ (by simp)]

theorem walk_check_all (fuel : Nat) :
    ∀ i, i + fuel ≤ 253 → walk_check fuel i (.Claimed i) (walk_net i) = true := by
  induction fuel with
  | zero => intro i _; rfl
  | succ fuel ih =>
    intro i hfi
    have hstep := walk_step_eq i (by omega)
    simp only [walk_check, hstep, List.length_cons, List.length_nil,
      List.all_cons, List.all_nil, find_address_walk, tick]
    simp only [make_address_claim, beq_self_eq_true, Bool.and_true,
      Bool.true_and, decide_eq_true_eq]
    simp only [decide_True, Bool.true_and]
    exact ih (i + 1) (by omega)

/-! ## Preservation of the network-map invariants -/

theorem entry_rel_symm : Symmetric entry_rel := by
  intro e1 e2 h
  obtain ⟨h1, h2⟩ := h
  refine ⟨fun hh => h1 hh.symm, fun hh => ?_⟩
  rw [hh]
  exact h2 hh.symm

theorem inv_release (net : network) (n : Nat) (h : network_inv net) :
    network_inv (net.release n) := by
  obtain ⟨h1, h2⟩ := h
  constructor
  · intro e he
    simp only [network.release, List.mem_map] at he
    obtain ⟨x, hx, rfl⟩ := he
    cases hb : (x.1 == n) with
    | true => simp only [hb, if_true]; unfold entry_ok; simp
    | false => simp only [hb, Bool.false_eq_true, if_false]; exact h1 x hx
  · simp only [network.release]
    rw [List.pairwise_map]
    apply List.Pairwise.imp_of_mem ?_ h2
    intro x y _ _ hr
    obtain ⟨hik, hsnd⟩ := hr
    cases hbx : (x.1 == n) <;> cases hby : (y.1 == n) <;>
      simp only [hbx, hby, Bool.false_eq_true, if_false, if_true]
    · exact ⟨hik, hsnd⟩
    · exact ⟨hik, fun hh => hh⟩
    · exact ⟨hik, fun _ => rfl⟩
    · exact ⟨hik, fun _ => rfl⟩

theorem inv_forget (net : network) (n : Nat) (h : network_inv net) :
    network_inv (net.forget n) := by
  obtain ⟨h1, h2⟩ := h
  exact ⟨fun e he => h1 e (List.mem_of_mem_filter he),
    List.Pairwise.sublist (List.filter_sublist _) h2⟩

theorem not_bound_of_find_name_none (net : network) (a : Nat)
    (h : net.find_name a = none) : ∀ e ∈ net.entries, e.2 ≠ some a := by
  unfold network.find_name at h
  intro e he hc
  have hfind := List.find?_eq_none.mp (Option.map_eq_none'.mp h) e he
  simp [hc] at hfind

theorem not_bound_release_owner (net : network) (a owner : Nat)
    (hinv : network_inv net) (h : net.find_name a = some owner) :
    ∀ e ∈ (net.release owner).entries, e.2 ≠ some a := by
  obtain ⟨h1, h2⟩ := hinv
  unfold network.find_name at h
  obtain ⟨w, hw, hw1⟩ : ∃ w, net.entries.find? (fun e => e.2 == some a) = some w
      ∧ w.1 = owner := by
    cases hfw : net.entries.find? (fun e => e.2 == some a) with
    | none => rw [hfw] at h; simp at h
    | some w =>
      rw [hfw] at h
      simp only [Option.map_some', Option.some.injEq] at h
      exact ⟨w, rfl, h⟩
  have hwmem : w ∈ net.entries := List.mem_of_find?_eq_some hw
  have hwsnd : w.2 = some a := by simpa using List.find?_some hw
  intro e he hc
  simp only [network.release, List.mem_map] at he
  obtain ⟨x, hx, rfl⟩ := he
  cases hb : (x.1 == owner) with
  | true => rw [hb] at hc; simp at hc
  | false =>
    rw [hb] at hc
    simp only [Bool.false_eq_true, if_false] at hc
    have hxw : x ≠ w := by
      intro hh
      rw [hh, hw1] at hb
      simp at hb
    have hrel := h2.forall entry_rel_symm hx hwmem hxw
    have hnone : x.2 = none := hrel.2 (by rw [hc, hwsnd])
    rw [hc] at hnone
    exact Option.noConfusion hnone

theorem inv_bind_addr (net : network) (n a : Nat) (hinv : network_inv net)
    (ha : a ≤ MAX_UNICAST_ADDR) (hfree : ∀ e ∈ net.entries, e.2 ≠ some a) :
    network_inv (net.bind_addr n a) := by
  obtain ⟨h1, h2⟩ := hinv
  unfold network.bind_addr
  by_cases hin : net.in_network n = true
  · rw [if_pos hin]
    constructor
    · intro e he
      simp only [List.mem_map] at he
      obtain ⟨x, hx, rfl⟩ := he
      cases hb : (x.1 == n) with
      | true => simp only [hb, if_true]; unfold entry_ok; simpa using ha
      | false => simp only [hb, Bool.false_eq_true, if_false]; exact h1 x hx
    · rw [List.pairwise_map]
      apply List.Pairwise.imp_of_mem ?_ h2
      intro x y hx hy hr
      obtain ⟨hik, hsnd⟩ := hr
      cases hbx : (x.1 == n) <;> cases hby : (y.1 == n) <;>
        simp only [hbx, hby, Bool.false_eq_true, if_false, if_true]
      · exact ⟨hik, hsnd⟩
      · refine ⟨hik, fun hh => ?_⟩
        exact absurd hh (hfree x hx)
      · refine ⟨hik, fun hh => ?_⟩
        exact absurd hh.symm (hfree y hy)
      · rw [beq_iff_eq] at hbx hby
        exact absurd (hbx.trans hby.symm) hik
  · rw [if_neg hin]
    have hnames : ∀ e ∈ net.entries, e.1 ≠ n := by
      intro e he hc
      unfold network.in_network network.find_entry at hin
      cases hfe : net.entries.find? (fun e => e.1 == n) with
      | some w => rw [hfe] at hin; simp at hin
      | none =>
        have := List.find?_eq_none.mp hfe e he
        simp [hc] at this
    constructor
    · intro e he
      rcases List.mem_append.mp he with hmem | hmem
      · exact h1 e hmem
      · simp only [List.mem_singleton] at hmem
        subst hmem
        unfold entry_ok
        simpa using ha
    · rw [List.pairwise_append]
      refine ⟨h2, by simp, ?_⟩
      intro x hx y hy
      simp only [List.mem_singleton] at hy
      subst hy
      exact ⟨hnames x hx, fun hh => absurd hh (hfree x hx)⟩

theorem inv_try_claim (net : network) (n a : Nat) (h : network_inv net) :
    network_inv (net.try_claim n a).2 := by
  unfold network.try_claim
  by_cases hgt : MAX_UNICAST_ADDR < a
  · rw [if_pos hgt]; exact h
  · rw [if_neg hgt]
    cases hfn : net.find_name a with
    | none =>
      exact inv_bind_addr net n a h (by omega)
        (not_bound_of_find_name_none net a hfn)
    | some owner =>
      by_cases heq : owner = n
      · simp only [heq, beq_self_eq_true, if_true]; exact h
      · have hb : (owner == n) = false := by
          simp only [beq_eq_false_iff_ne, ne_eq]; exact heq
        simp only [hb, Bool.false_eq_true, if_false]
        by_cases hlt : n < owner
        · rw [if_pos hlt]
          exact inv_bind_addr (net.release owner) n a
            (inv_release net owner h) (by omega)
            (not_bound_release_owner net a owner h hfn)
        · rw [if_neg hlt]; exact h

/-! ## Fullness of the network map -/

theorem is_full_iff_bound (net : network) :
    net.is_full = true ↔
      ∀ a, a ≤ MAX_UNICAST_ADDR → ∃ e ∈ net.entries, e.2 = some a := by
  unfold network.is_full
  rw [List.all_eq_true]
  constructor
  · intro hall a ha
    have hm : a ∈ List.range 254 := by
      rw [List.mem_range]; unfold MAX_UNICAST_ADDR at ha; omega
    have := hall a hm
    rw [List.any_eq_true] at this
    obtain ⟨e, he, hp⟩ := this
    exact ⟨e, he, by simpa using hp⟩
  · intro hfa a ha
    rw [List.mem_range] at ha
    obtain ⟨e, he, hp⟩ := hfa a (by unfold MAX_UNICAST_ADDR; omega)
    rw [List.any_eq_true]
    exact ⟨e, he, by simp [hp]⟩

theorem available_false_of_full (net : network) (h : net.is_full = true)
    (a : Nat) : net.available a = false := by
  unfold network.available
  by_cases ha : a ≤ MAX_UNICAST_ADDR
  · obtain ⟨e, he, hp⟩ := (is_full_iff_bound net).mp h a ha
    have hall : net.entries.all (fun e => !(e.2 == some a)) = false := by
      cases hcase : net.entries.all (fun e => !(e.2 == some a)) with
      | false => rfl
      | true =>
        have := List.all_eq_true.mp hcase e he
        simp [hp] at this
    rw [hall, Bool.and_false]
  · rw [decide_eq_false ha, Bool.false_and]

theorem first_free_none_of_full (net : network) (h : net.is_full = true)
    (lo : Nat) : net.first_free_address lo = none := by
  unfold network.first_free_address
  apply List.find?_eq_none.mpr
  intro a _
  simp [available_false_of_full net h a]

theorem claim_attempt_errors (ln : Nat) (fuel : Nat) :
    ∀ a net, (claim_attempt ln fuel a net).errors = [] := by
  induction fuel with
  | zero => intro a net; rfl
  | succ fuel ih =>
    intro a net
    unfold claim_attempt
    cases h : net.try_claim ln a with
    | mk o net2 =>
      cases o with
      | Rejected =>
        cases net.first_free_address (a + 1) with
        | none => rfl
        | some a2 => exact ih a2 net
      | Inserted => rfl
      | Refreshed => rfl
      | Displaced old => rfl

/-- Modelled from the spec: a fully occupied network map, every unicast
address bound to a distinct NAME. -/
def full_net : network :=
  ⟨(List.range 254).map (fun a => (a, some a))⟩

theorem full_net_is_full : full_net.is_full = true := by
  apply (is_full_iff_bound full_net).mpr
  intro a ha
  refine ⟨(a, some a), ?_, rfl⟩
  unfold full_net
  exact List.mem_map.mpr
    ⟨a, List.mem_range.mpr (by unfold MAX_UNICAST_ADDR at ha; omega), rfl⟩

/-! ## The claims -/

/-- C1, counterexample: with local NAME 100 in `Claimed 0` on a map where
address 1 is held by the lower-priority NAME 200, the remote claim
`(50, 0)` wins the conflict, yet the claimer emits no cannot-claim frame
and does not transition to `CannotClaim` — it directly claims address 1
(displacing NAME 200), which `start_address_claim(remote_addr + 1)` (whose
fallback is `first_free_address(0)`) would not do either. -/
theorem claim_C1_counterexample :
    (process 100 (.Claimed 0) ⟨[(100, some 0), (200, some 1)]⟩
        (make_address_claim 50 0)).state = .Claiming 1 ∧
    (process 100 (.Claimed 0) ⟨[(100, some 0), (200, some 1)]⟩
        (make_address_claim 50 0)).frames = [make_address_claim 100 1] ∧
    (make_address_claim 100 1).header.source_address ≠ IDLE_ADDR ∧
    process 100 (.Claimed 0) ⟨[(100, some 0), (200, some 1)]⟩
        (make_address_claim 50 0) ≠
      start_address_claim 100 1
        (((⟨[(100, some 0), (200, some 1)]⟩ : network).release 100).try_claim
          50 0).2 := by
  decide

/-- C1, amended: when the claimer, in `Claiming(addr)` or `Claimed(addr)`,
processes a received address-claim frame whose source address equals its
current address and whose NAME has higher priority (numerically lower)
than the local NAME, it releases the local binding, records the remote
claim via `try_claim(remote_name, remote_addr)`, and immediately contests
address `remote_addr + 1` directly; the emitted frames, resulting state
and resulting map are exactly those of that contest (an address-claim and
`Claiming(remote_addr + 1)` when the address is obtainable, one
cannot-claim and `CannotClaim` when exhausted), with no separate
cannot-claim frame emitted beforehand and nothing reported through
`on_error`. -/
theorem claim_C1_lose_releases_and_recontests (ln rn ra : Nat)
    (st : claimer_state) (net : network) (hcur : current_addr st = some ra)
    (hpri : rn < ln) (hrn : rn < 18446744073709551616) :
    process ln st net (make_address_claim rn ra) =
      contest ln (ra + 1) (((net.release ln).try_claim rn ra).2) ∧
    (process ln st net (make_address_claim rn ra)).errors = [] := by
  have heq := process_claim_conflict_lose ln rn ra st net hcur hrn
    (by omega)
  refine ⟨heq, ?_⟩
  rw [heq]
  exact claim_attempt_errors ln 255 (ra + 1) _

/-- C1, witness: the amended claim at local NAME 100 in `Claimed 0`,
losing address 0 to remote NAME 50. -/
theorem claim_C1_witness :
    process 100 (.Claimed 0) ⟨[(100, some 0), (200, some 1)]⟩
        (make_address_claim 50 0) =
      contest 100 1
        (((⟨[(100, some 0), (200, some 1)]⟩ : network).release 100).try_claim
          50 0).2 :=
  (claim_C1_lose_releases_and_recontests 100 50 0 (.Claimed 0)
    ⟨[(100, some 0), (200, some 1)]⟩ rfl (by decide) (by decide)).1

/-- C2: every network-map mutator (`try_claim`, `release`, `forget`)
preserves the invariants — every stored address is in `0..=253`,
`address → NAME` and `NAME → address` are partial functions with at most
one binding each way; a NAME may be registered without an address; and
`is_full()` holds iff every address `0..=253` is bound. -/
theorem claim_C2_mutators_preserve_invariants (net : network)
    (hinv : network_inv net) :
    (∀ n a, network_inv (net.try_claim n a).2) ∧
    (∀ n, network_inv (net.release n)) ∧
    (∀ n, network_inv (net.forget n)) ∧
    (net.is_full = true ↔
      ∀ a, a ≤ MAX_UNICAST_ADDR → ∃ e ∈ net.entries, e.2 = some a) ∧
    (∀ n, network_inv ⟨[(n, none)]⟩) := by
  refine ⟨fun n a => inv_try_claim net n a hinv,
    fun n => inv_release net n hinv,
    fun n => inv_forget net n hinv,
    is_full_iff_bound net,
    fun n => ⟨?_, ?_⟩⟩
  · intro e he
    simp only [List.mem_singleton] at he
    subst he
    unfold entry_ok
    simp [MAX_UNICAST_ADDR]
  · simp

/-- C2, witness: the mutators applied to a concrete valid map. -/
theorem claim_C2_witness :
    network_inv ((⟨[(5, some 1), (7, none)]⟩ : network).try_claim 9 2).2 :=
  (claim_C2_mutators_preserve_invariants ⟨[(5, some 1), (7, none)]⟩
    (by decide)).1 9 2

/-- C3: in the contested-walk scenario (local NAME `0xFF` holding address
`i`, the remote claim `(NAME{i}, i)` inserted and processed, for each `i`
from 0 to 252, the settle tick firing after each step), every step emits
exactly one frame, that frame's source address is `i + 1`, and afterwards
`find_address(0xFF) = some (i + 1)`. -/
theorem claim_C3_contested_walk :
    walk_check 253 0 (.Claimed 0) walk_init_net = true := by
  have h0 : walk_init_net = walk_net 0 := rfl
  rw [h0]
  exact walk_check_all 253 0 (by omega)

/-- C4: when the claimer processes a received address-request frame
(global, or directed to its current address): in state `Claimed(addr)` it
emits an address-claim frame with source `addr`; in `Claiming`,
`NoAddress` or `CannotClaim` it emits a cannot-claim frame, whose source
is 254.  State and map are untouched. -/
theorem claim_C4_request_response (ln : Nat) (st : claimer_state)
    (net : network) (f : frame) (hreq : is_address_request f = true)
    (hdst : f.header.pdu_specific = NO_ADDR ∨
      current_addr st = some f.header.pdu_specific) :
    (∀ a, st = .Claimed a →
      process ln st net f = ⟨st, net, [make_address_claim ln a], []⟩) ∧
    ((∀ a, st ≠ .Claimed a) →
      process ln st net f = ⟨st, net, [make_cannot_claim ln], []⟩) ∧
    (make_cannot_claim ln).header.source_address = IDLE_ADDR := by
  have hpf : f.header.pdu_format = PF_REQUEST := by
    unfold is_address_request at hreq
    rw [Bool.and_eq_true] at hreq
    have := hreq.1
    rwa [beq_iff_eq] at this
  have hnotclaim : is_address_claim f = false := by
    unfold is_address_claim
    rw [hpf]
    rfl
  have hcond : (is_address_request f
      && (f.header.pdu_specific == NO_ADDR
          || current_addr st == some f.header.pdu_specific)) = true := by
    rw [hreq, Bool.true_and]
    rcases hdst with hg | hg
    · rw [hg]
      simp
    · rw [hg]
      simp
  refine ⟨?_, ?_, rfl⟩
  · intro a hst
    subst hst
    simp only [process, hnotclaim, Bool.false_eq_true, if_false, hcond,
      if_true]
  · intro hne
    cases st with
    | Claimed a => exact absurd rfl (hne a)
    | NoAddress =>
      simp only [process, hnotclaim, Bool.false_eq_true, if_false, hcond,
        if_true]
    | Claiming a =>
      simp only [process, hnotclaim, Bool.false_eq_true, if_false, hcond,
        if_true]
    | CannotClaim =>
      simp only [process, hnotclaim, Bool.false_eq_true, if_false, hcond,
        if_true]

/-- C4, witness: a global request in `CannotClaim` is answered with one
cannot-claim frame. -/
theorem claim_C4_witness :
    process 77 .CannotClaim ⟨[]⟩ make_address_request =
      ⟨.CannotClaim, ⟨[]⟩, [make_cannot_claim 77], []⟩ :=
  (claim_C4_request_response 77 .CannotClaim ⟨[]⟩ make_address_request rfl
    (Or.inl rfl)).2.1 (fun _ h => claimer_state.noConfusion h)

/-- C5: when the network map is full, `start_address_claim` transitions to
`CannotClaim` and emits exactly one cannot-claim frame (PDU-format 238,
PDU-specific 255, source 254); the `Exhausted` condition is not reported
through `on_error` (the error list is empty) and the map is unchanged. -/
theorem claim_C5_exhausted_cannot_claim (ln pref : Nat) (net : network)
    (hfull : net.is_full = true) :
    start_address_claim ln pref net =
      ⟨.CannotClaim, net, [make_cannot_claim ln], []⟩ ∧
    (make_cannot_claim ln).header.pdu_format = PF_ADDRESS_CLAIM ∧
    (make_cannot_claim ln).header.pdu_specific = NO_ADDR ∧
    (make_cannot_claim ln).header.source_address = IDLE_ADDR := by
  refine ⟨?_, rfl, rfl, rfl⟩
  unfold start_address_claim
  rw [if_neg (by
    rw [available_false_of_full net hfull pref]
    exact Bool.false_ne_true)]
  rw [first_free_none_of_full net hfull 0]

/-- C5, witness: the exhausted transition on a concrete full map. -/
theorem claim_C5_witness :
    start_address_claim 7 0 full_net =
      ⟨.CannotClaim, full_net, [make_cannot_claim 7], []⟩ :=
  (claim_C5_exhausted_cannot_claim 7 0 full_net full_net_is_full).1

/-- C6: a received address-claim frame whose source address differs from
the claimer's current address only updates the map via
`try_claim(remote_name, remote_addr)`: no frame and no error is emitted
and the state is unchanged; concretely, after observing the claim of NAME
`0xa00c81045a20021b` at `0x10` from the empty map, the map has one NAME,
one address, and `find_address` of that NAME returns `some 0x10`. -/
theorem claim_C6_other_claim_updates_map_only (ln rn ra : Nat)
    (st : claimer_state) (net : network)
    (hrn : rn < 18446744073709551616)
    (hdiff : current_addr st ≠ some ra) :
    process ln st net (make_address_claim rn ra) =
      ⟨st, (net.try_claim rn ra).2, [], []⟩ ∧
    ((process 0xFF .NoAddress ⟨[]⟩
        (make_address_claim 0xa00c81045a20021b 0x10)).net.name_size = 1 ∧
     (process 0xFF .NoAddress ⟨[]⟩
        (make_address_claim 0xa00c81045a20021b 0x10)).net.address_size = 1 ∧
     (process 0xFF .NoAddress ⟨[]⟩
        (make_address_claim 0xa00c81045a20021b 0x10)).net.find_address
          0xa00c81045a20021b = some 0x10 ∧
     (process 0xFF .NoAddress ⟨[]⟩
        (make_address_claim 0xa00c81045a20021b 0x10)).frames = [] ∧
     (process 0xFF .NoAddress ⟨[]⟩
        (make_address_claim 0xa00c81045a20021b 0x10)).state = .NoAddress) := by
  constructor
  · have h1 : is_address_claim (make_address_claim rn ra) = true := rfl
    have h2 : ¬ ((make_address_claim rn ra).data.length ≠ 8) := by
      simp [make_address_claim, name_le8]
    have hdata : le_to_name (make_address_claim rn ra).data = rn :=
      le_to_name_name_le8 rn hrn
    cases st with
    | NoAddress =>
      simp only [process, h1, if_true, current_addr]
      rw [if_neg h2, hdata]
      rfl
    | CannotClaim =>
      simp only [process, h1, if_true, current_addr]
      rw [if_neg h2, hdata]
      rfl
    | Claiming a =>
      have hba : ((make_address_claim rn ra).header.source_address == a)
          = false := by
        simp only [beq_eq_false_iff_ne, ne_eq]
        intro hh
        exact hdiff (by simp [current_addr, ← hh, make_address_claim])
      simp only [process, h1, if_true, current_addr]
      rw [if_neg h2]
      simp only [hba, Bool.false_eq_true, if_false]
      rw [hdata]
      rfl
    | Claimed a =>
      have hba : ((make_address_claim rn ra).header.source_address == a)
          = false := by
        simp only [beq_eq_false_iff_ne, ne_eq]
        intro hh
        exact hdiff (by simp [current_addr, ← hh, make_address_claim])
      simp only [process, h1, if_true, current_addr]
      rw [if_neg h2]
      simp only [hba, Bool.false_eq_true, if_false]
      rw [hdata]
      rfl
  · decide

/-- C6, witness: a remote claim at an address other than the current one
leaves state and emissions untouched. -/
theorem claim_C6_witness :
    process 1 .NoAddress ⟨[]⟩ (make_address_claim 2 3) =
      ⟨.NoAddress, ((⟨[]⟩ : network).try_claim 2 3).2, [], []⟩ :=
  (claim_C6_other_claim_updates_map_only 1 2 3 .NoAddress ⟨[]⟩ (by decide)
    (by decide)).1

/-- C7: `validate_address` accepts an incoming frame iff: when neither
local nor target NAME is set, always; when the local NAME is set and the
frame is directed (PDU-format < 240), only if the destination address
matches the local NAME's current address; when the target NAME is set,
only if the frame's source address matches the target NAME's current
address.  A rejected frame is dropped without callback, an accepted one is
delivered to `on_read`. -/
theorem claim_C7_validate_address (net : network) (lnm tnm : Option Nat)
    (f : frame) :
    (validate_address net lnm tnm f = true ↔
      ((∀ ln, lnm = some ln → f.header.pdu_format < 240 →
          net.find_address ln = some f.header.pdu_specific) ∧
       (∀ tn, tnm = some tn →
          net.find_address tn = some f.header.source_address))) ∧
    (lnm = none → tnm = none → validate_address net lnm tnm f = true) ∧
    (validate_address net lnm tnm f = false →
      read_deliver net lnm tnm f = none) ∧
    (validate_address net lnm tnm f = true →
      read_deliver net lnm tnm f = some f) := by
  refine ⟨?_, ?_, ?_, ?_⟩
  · unfold validate_address
    rw [Bool.and_eq_true]
    constructor
    · rintro ⟨hl, ht⟩
      constructor
      · intro ln hln hdir
        subst hln
        rw [Bool.or_eq_true] at hl
        rcases hl with hb | hb
        · unfold is_broadcast at hb
          rw [decide_eq_true_eq] at hb
          omega
        · rwa [beq_iff_eq] at hb
      · intro tn htn
        subst htn
        rwa [beq_iff_eq] at ht
    · rintro ⟨hl, ht⟩
      constructor
      · cases lnm with
        | none => rfl
        | some ln =>
          cases hb : is_broadcast f with
          | true => rfl
          | false =>
            show (false || (net.find_address ln == some f.header.pdu_specific))
              = true
            rw [Bool.false_or, beq_iff_eq]
            apply hl ln rfl
            unfold is_broadcast at hb
            simpa using hb
      · cases tnm with
        | none => rfl
        | some tn =>
          show (net.find_address tn == some f.header.source_address) = true
          rw [beq_iff_eq]
          exact ht tn rfl
  · intro hl ht
    subst hl; subst ht
    rfl
  · intro h
    unfold read_deliver
    rw [h]
    rfl
  · intro h
    unfold read_deliver
    rw [h]
    rfl

/-- C7, witness: with no NAMEs configured every frame is accepted and
delivered. -/
theorem claim_C7_witness :
    validate_address ⟨[]⟩ none none
      { header := ⟨6, 0, 240, 0, 0⟩, data := [] } = true :=
  (claim_C7_validate_address ⟨[]⟩ none none
    { header := ⟨6, 0, 240, 0, 0⟩, data := [] }).2.1 rfl rfl

/-- C8: `broadcast(frame)` fails with `InvalidArgument` — synchronously,
with the queue untouched — iff the frame is not broadcast (PDU-format
< 240) or the local NAME has no address bound; otherwise it stamps the
source address from `network.find_address(local_name)` and enqueues the
frame. -/
theorem claim_C8_broadcast_invalid_or_stamp (net : network) (c : connection)
    (f : frame) :
    (broadcast net c f = .error .InvalidArgument ↔
      (is_broadcast f = false ∨ local_address net c = none)) ∧
    (∀ a, is_broadcast f = true → local_address net c = some a →
      broadcast net c f =
        .ok { c with queue := c.queue ++ [stamp_source f a] }) := by
  constructor
  · unfold broadcast
    cases hb : is_broadcast f with
    | false => simp
    | true =>
      simp only [Bool.not_true, Bool.false_eq_true, if_false]
      cases hl : local_address net c with
      | none => simp
      | some a => simp
  · intro a hb hl
    unfold broadcast
    rw [hb, hl]
    rfl

/-- C8, witness: a broadcast frame with the local NAME bound to address 4
is stamped and enqueued. -/
theorem claim_C8_witness :
    broadcast ⟨[(9, some 4)]⟩ ⟨some 9, none, []⟩
      { header := ⟨6, 0, 240, 0, 0⟩, data := [] } =
      .ok ⟨some 9, none,
        [stamp_source { header := ⟨6, 0, 240, 0, 0⟩, data := [] } 4]⟩ :=
  (claim_C8_broadcast_invalid_or_stamp ⟨[(9, some 4)]⟩ ⟨some 9, none, []⟩
    { header := ⟨6, 0, 240, 0, 0⟩, data := [] }).2 4 rfl rfl

/-- C9: decoding any 29-bit J1939 identifier into its fields and
re-encoding yields the original identifier; encoding a priority above 7
fails with `BadHeader`. -/
theorem claim_C9_header_roundtrip :
    (∀ id, id < 536870912 →
      encode_header (decode_header id) = .ok id) ∧
    (∀ h, 7 < h.priority → encode_header h = .error .BadHeader) := by
  constructor
  · intro id hid
    unfold decode_header encode_header
    rw [if_neg (by simp only [gt_iff_lt, not_lt]; omega)]
    simp only [Except.ok.injEq]
    omega
  · intro h hp
    unfold encode_header
    rw [if_pos hp]

/-- C9, witness: the round trip at a concrete identifier and the failure
at priority 8. -/
theorem claim_C9_witness :
    encode_header (decode_header 123456789) = .ok 123456789 ∧
    encode_header ⟨8, 0, 0, 0, 0⟩ = .error .BadHeader :=
  ⟨claim_C9_header_roundtrip.1 123456789 (by decide),
   claim_C9_header_roundtrip.2 ⟨8, 0, 0, 0, 0⟩ (by decide)⟩

/-- C10: no connection operation (`send_raw`, `broadcast`, `send`,
`send_to`, or the read path through `validate_address`) ever changes the
shared network map — the C++ connection holds the map through a `const`
reference, so every modelled operation threads the map through unchanged
and the claimer remains the sole mutator of binding state. -/
theorem claim_C10_connection_never_mutates_network (net : network)
    (c : connection) (op : conn_op) : (conn_step net c op).1 = net := by
  cases op with
  | raw_op f => rfl
  | broadcast_op f => rfl
  | send_op f => rfl
  | send_to_op t f => rfl
  | read_op f => rfl

end Jay
